import Mathlib

set_option maxRecDepth 10000

/-!
Verification of the task-processing pipeline of the TDS code-generator service.

The development shallowly embeds the three source modules:

* `app/notify.py`    — `notify_evaluation_server`, the retry/backoff notification loop;
* `app/llm_generator.py` — `generate_app_code` and its fallback template helpers
  (Python strings are embedded as `List Char`; the live model call, which is an
  external collaborator, is an oracle value `Except Unit (List Char)`);
* `app/main.py`      — `receive_request`, the idempotent dispatcher and publish
  workflow. All external collaborators (repository host, attachment store,
  HTTP transport, idempotency file) are modelled as oracle fields / explicit
  state, and every externally visible action is recorded in an event trace.
-/

namespace App

/-! ## Character-list utilities mirroring Python `str` operations -/

/-- Whitespace characters stripped by Python `str.strip()` (ASCII subset;
only space and newline occur at the boundaries relevant here). -/
def isPySpace (c : Char) : Bool :=
  c = ' ' || c = '\t' || c = '\n' || c = '\r' || c = '\x0b' || c = '\x0c'

/-- Drop leading Python whitespace. -/
def pyStripLeft : List Char → List Char
  | [] => []
  | c :: s => if isPySpace c then pyStripLeft s else c :: s

/-- Drop trailing Python whitespace. -/
def pyStripRight (s : List Char) : List Char :=
  (pyStripLeft s.reverse).reverse

/-- Python `str.strip()`. -/
def pyStrip (s : List Char) : List Char :=
  pyStripRight (pyStripLeft s)

/-- Python `p in s` (substring occurrence test). -/
def occursB (p : List Char) : List Char → Bool
  | [] => decide (p = [])
  | c :: t => p.isPrefixOf (c :: t) || occursB p t

/-- Worker for `replaceAll`: scans left to right; `skip > 0` means the next
`skip` characters belong to an occurrence just replaced and are dropped
without being rescanned (so matches never overlap, as in Python). -/
def replaceAllGo (p r : List Char) : List Char → Nat → List Char
  | [], _ => []
  | _ :: t, skip+1 => replaceAllGo p r t skip
  | c :: t, 0 =>
    if p.isPrefixOf (c :: t) then r ++ replaceAllGo p r t (p.length - 1)
    else c :: replaceAllGo p r t 0

/-- Python `s.replace(p, r)` (replace every occurrence, scanning left to right). -/
def replaceAll (p r s : List Char) : List Char :=
  replaceAllGo p r s 0

/-- Worker for `splitOnce`; `acc` holds the scanned prefix in reverse. -/
def splitOnceAux (p : List Char) : List Char → List Char → Option (List Char × List Char)
  | [], acc => if p.isPrefixOf ([] : List Char) then some (acc.reverse, []) else none
  | c :: s, acc =>
    if p.isPrefixOf (c :: s) then some (acc.reverse, List.drop (p.length - 1) s)
    else splitOnceAux p s (c :: acc)

/-- Split at the first occurrence of `p`, Python `s.split(p, 1)`;
`none` when `p` does not occur. -/
def splitOnce (p s : List Char) : Option (List Char × List Char) :=
  splitOnceAux p s []

/-- Python `s.replace(p, r, 1)` (replace only the first occurrence). -/
def replaceOnce (p r s : List Char) : List Char :=
  match splitOnce p s with
  | some ab => ab.1 ++ r ++ ab.2
  | none => s

/-- Python `"\n".join(xs)`. -/
def joinNl : List (List Char) → List Char
  | [] => []
  | [x] => x
  | x :: xs => x ++ '\n' :: joinNl xs

/-! ## `app/llm_generator.py`

Attachment decoding (`decode_attachments`) performs base64 decoding and disk
writes; it is the AttachmentStore collaborator, modelled by the list of
name/mime/size records it returns. Prompt construction (`user_prompt`,
`context_note`) only feeds the live model call, which is itself the oracle
`api : Except Unit (List Char)` (the `.ok` payload is `response.text or ""`;
`.error` covers every failure of the live call, including a missing API key),
so the prompt text does not influence any observable output and is not
re-modelled. -/

/-- Metadata record returned by `decode_attachments` for one saved attachment. -/
structure SavedMeta where
  name : List Char
  mime : List Char
  size : Nat
deriving DecidableEq

/-- Python `summarize_attachment_meta` from `app/llm_generator.py`. -/
def summarize_attachment_meta (saved : List SavedMeta) : List Char :=
  if saved = [] then []
  else joinNl (saved.map (fun a =>
    ("  - ").data ++ a.name ++ (" (").data ++ a.mime ++ (", ").data
      ++ (Nat.repr a.size).data ++ (" bytes)").data))

/-- The fallback HTML template of `generate_fallback_html`, up to and
including the text just before the interpolated brief (Python braces written
as byte escapes). -/
def fallbackHtmlPre : List Char :=
  ("<!DOCTYPE html>\n<html lang=\"en\">\n<head>\n    <meta charset=\"UTF-8\">\n    <meta name=\"viewport\" content=\"width=device-width, initial-scale=1.0\">\n    <title>Generated App</title>\n    <style>\n        * \x7b\n            margin: 0;\n            padding: 0;\n            box-sizing: border-box;\n        \x7d\n        \n        body \x7b\n            font-family: \x27Segoe UI\x27, Tahoma, Geneva, Verdana, sans-serif;\n            background: linear-gradient(135deg, #667eea 0%, #764ba2 100%);\n            min-height: 100vh;\n            display: flex;\n            align-items: center;\n            justify-content: center;\n            padding: 20px;\n        \x7d\n        \n        .container \x7b\n            background: rgba(255, 255, 255, 0.95);\n            border-radius: 20px;\n            padding: 40px;\n            max-width: 800px;\n            width: 100%;\n            box-shadow: 0 20px 60px rgba(0,0,0,0.3);\n            animation: fadeIn 0.5s ease-in;\n        \x7d\n        \n        @keyframes fadeIn \x7b\n            from \x7b opacity: 0; transform: translateY(20px); \x7d\n            to \x7b opacity: 1; transform: translateY(0); \x7d\n        \x7d\n        \n        h1 \x7b\n            color: #667eea;\n            margin-bottom: 20px;\n            font-size: 2.5em;\n        \x7d\n        \n        p \x7b\n            color: #333;\n            line-height: 1.6;\n            margin-bottom: 15px;\n        \x7d\n        \n        .info \x7b\n            background: #f0f0f0;\n            padding: 20px;\n            border-radius: 10px;\n            margin-top: 20px;\n            border-left: 4px solid #667eea;\n        \x7d\n        \n        .info strong \x7b\n            color: #764ba2;\n        \x7d\n        \n        @media (max-width: 600px) \x7b\n            .container \x7b\n                padding: 20px;\n            \x7d\n            \n            h1 \x7b\n                font-size: 1.8em;\n            \x7d\n        \x7d\n    </style>\n</head>\n<body>\n    <div class=\"container\">\n        <h1>🚀 Generated App</h1>\n        <p>This application was generated using LLM technology.</p>\n        <p>The system successfully processed your request and created this responsive web application.</p>\n        <div class=\"info\">\n            <strong>Brief:</strong> ").data

/-- The fallback HTML template after the interpolated brief. -/
def fallbackHtmlPost : List Char :=
  ("\n        </div>\n    </div>\n</body>\n</html>").data

/-- Python `generate_fallback_html` from `app/llm_generator.py`. -/
def generate_fallback_html (brief : List Char) : List Char :=
  fallbackHtmlPre ++ brief ++ fallbackHtmlPost

/-- Head of the README fallback template, up to the interpolated brief. -/
def readmeHeader : List Char :=
  ("# Generated Web Application\n\n## Brief\n").data

/-- README fallback template between the brief and the round number. -/
def readmeRoundPre : List Char := ("\n\n## Round\nRound ").data

/-- Final fixed block of the README fallback template. -/
def readmeUsage : List Char :=
  ("## Usage\nOpen `index.html` in a web browser to view the application.\n\n## Technologies\n- HTML5\n- CSS3\n- JavaScript\n\n---\n*Generated using LLM Code Generator*\n").data

/-- Python `generate_readme_fallback` from `app/llm_generator.py`. -/
def generate_readme_fallback (brief : List Char) (checks : List (List Char))
    (attachments_meta : List Char) (round_num : Nat) : List Char :=
  let content := readmeHeader ++ brief ++ readmeRoundPre
      ++ (Nat.repr round_num).data ++ ("\n\n").data
  let content := if checks = [] then content
      else content ++ ("## Requirements\n").data
        ++ (checks.foldr (fun c acc => ("- ").data ++ c ++ '\n' :: acc) [])
        ++ ("\n").data
  let content := if attachments_meta = [] then content
      else content ++ ("## Attachments\n").data ++ attachments_meta ++ ("\n\n").data
  content ++ readmeUsage

/-- The code-fence marker pattern stripped by the pipeline. -/
def tb : List Char := ("```").data

/-- The `html`-tagged code-fence marker. -/
def tbHtml : List Char := ("```html").data

/-- The `markdown`-tagged code-fence marker. -/
def tbMarkdown : List Char := ("```markdown").data

/-- The separator between the generated HTML and README parts. -/
def readmeSep : List Char := ("---README.md---").data

/-- Python `_strip_code_block` from `app/llm_generator.py`. -/
def strip_code_block (text : List Char) : List Char :=
  let t := pyStrip text
  let t := replaceAll tbHtml [] t
  let t := replaceAll tbMarkdown [] t
  let t := replaceAll tb [] t
  pyStrip t

/-- Result of `generate_app_code`: the artifact set (filename/content pairs,
in insertion order) and the saved-attachment metadata. -/
structure GenResult where
  files : List (String × List Char)
  attachments : List SavedMeta
deriving DecidableEq

/-- The `text` value of `generate_app_code` just before the final split:
either the cleaned live-call response or the assembled fallback document. -/
def genText (brief : List Char) (saved : List SavedMeta)
    (checks : List (List Char)) (round_num : Nat)
    (api : Except Unit (List Char)) : List Char :=
  match api with
  | Except.ok t0 =>
    let t := pyStrip t0
    let t := if occursB (("html").data) (t.take 20) then replaceOnce tbHtml [] t else t
    let t := replaceAll tb [] t
    pyStrip t
  | Except.error _ =>
    generate_fallback_html brief ++ readmeSep
      ++ '\n' :: generate_readme_fallback brief checks
        (summarize_attachment_meta saved) round_num

/-- Python `generate_app_code` from `app/llm_generator.py`. `saved` is the
AttachmentStore collaborator result; `api` is the live-model-call oracle.
`prev_readme` only enters the prompt of the live call (see the section
comment), hence does not appear in the result. -/
def generate_app_code (brief : List Char) (saved : List SavedMeta)
    (checks : List (List Char)) (round_num : Nat)
    (_prev_readme : Option (List Char)) (api : Except Unit (List Char)) : GenResult :=
  match splitOnce readmeSep (genText brief saved checks round_num api) with
  | some ab =>
    { files := [(("index.html" : String), strip_code_block ab.1),
                (("README.md" : String), strip_code_block ab.2)],
      attachments := saved }
  | none =>
    { files := [(("index.html" : String),
                 strip_code_block (genText brief saved checks round_num api)),
                (("README.md" : String),
                 generate_readme_fallback brief checks
                   (summarize_attachment_meta saved) round_num)],
      attachments := saved }

/-! ## `app/notify.py`

The HTTP POST of each attempt is external; `outcome i` is what attempt `i`
(0-based) observes: a server response with some status code, or a raised
transport failure (timeout included). The function returns the Python return
value together with the list of `time.sleep` durations performed and the
number of attempts made. -/

/-- What one notification attempt observes. -/
inductive AttemptResult where
  | status (code : Nat)
  | failure
deriving DecidableEq

/-- The Task Outcome / notification payload fields
(email, task, round, nonce, repo_url, commit_sha, pages_url). -/
structure Outcome where
  email : String
  task : String
  round : Nat
  nonce : String
  repo_url : String
  commit_sha : String
  pages_url : String
deriving DecidableEq

/-- Whether an attempt counts as a success: `r.status_code == 200`; a raised
transport failure is caught by the `except` arm and is never a success. -/
def attemptSucceeded (a : AttemptResult) : Bool :=
  match a with
  | AttemptResult.status code => code == 200
  | AttemptResult.failure => false

/-- Worker for `notify_evaluation_server`: `fuel` is the number of attempts
still allowed (5 at the start), `attempt` the 0-based index of the next
attempt, `delay` the current backoff delay. Mirrors the `for attempt in
range(5)` loop: on a non-200 outcome the loop sleeps `delay` and doubles it
unless this was the final attempt. Returns (result, sleeps, attempts made). -/
def notifyGo (outcome : Nat → AttemptResult) : Nat → Nat → Nat → Bool × List Nat × Nat
  | 0, _, _ => (false, [], 0)
  | fuel+1, attempt, delay =>
    if attemptSucceeded (outcome attempt) then (true, [], 1)
    else if fuel = 0 then (false, [], 1)
    else
      ((notifyGo outcome fuel (attempt+1) (delay*2)).1,
       delay :: (notifyGo outcome fuel (attempt+1) (delay*2)).2.1,
       (notifyGo outcome fuel (attempt+1) (delay*2)).2.2 + 1)

/-- Python `notify_evaluation_server` from `app/notify.py`. The
`evaluation_url` and payload do not influence the control flow (they only
parameterize the external POST) and are carried for fidelity only. -/
def notify_evaluation_server (_evaluation_url : Option String) (_payload : Outcome)
    (outcome : Nat → AttemptResult) : Bool × List Nat × Nat :=
  notifyGo outcome 5 0 1

/-! ## `app/main.py`

`receive_request` is embedded as a pure function from (configuration,
persisted idempotency mapping, request, collaborator oracle) to (response,
new mapping, event trace). The trace records every externally visible action
in execution order. The idempotency file (`load_processed`/`save_processed`)
is the explicit `Store` state; the GitHub collaborator functions
(`create_repo`, `get_repo`, `create_or_update_file`, `enable_pages`,
`repo.get_branch`) are oracle fields, since only their success or failure —
caught or propagated by `receive_request` — matters to this module. -/

/-- Environment configuration (`USER_SECRET`, `GITHUB_USERNAME`, plus the
wall-clock year read by `generate_mit_license`). -/
structure Config where
  userSecret : String
  username : String
  year : Nat

/-- The JSON body of a `/ready` request. `secret`, `round` and
`evaluation_url` use `Option` for `data.get(...)`; the remaining fields are
accessed with `data[...]` and are therefore required. -/
structure TaskRequest where
  secret : Option String
  email : String
  task : String
  round : Option Nat
  nonce : String
  brief : List Char
  checks : List (List Char)
  evaluation_url : Option String

/-- The persisted idempotency mapping (`/tmp/processed_requests.json`):
an association list, most recent binding first. -/
abbrev Store := List (String × Outcome)

/-- Outcome of the `create_repo` call: success, or an exception whose cause
may or may not be that the repository already exists. -/
inductive CreateRepoOutcome where
  | created
  | failed (alreadyExists : Bool)
deriving DecidableEq

/-- One externally visible action of a `receive_request` run, in order. -/
inductive Event where
  | decodeAttachments
  | readPrevReadme (task : String)
  | generatorCall (brief : List Char) (round : Nat) (prevReadme : Option (List Char))
  | createRepoAttempt (name : String)
  | fetchRepo (name : String)
  | writeFile (path : String) (content : List Char) (message : String) (ok : Bool)
  | enablePages (ok : Bool)
  | readBranch
  | notifyCall (url : Option String) (payload : Outcome)
  | saveStore
deriving DecidableEq

/-- Collaborator oracle for one `receive_request` run. -/
structure Oracle where
  savedAttachments : List SavedMeta
  prevReadme : Option (List Char)
  genApi : Except Unit (List Char)
  createRepo : CreateRepoOutcome
  fetchRepoOk : Bool
  writeOk : String → Bool
  pagesOk : Bool
  branchSha : Option String
  notifyOutcome : Nat → AttemptResult

/-- Python `generate_mit_license` from `app/main.py` (the wall-clock year is
taken from the configuration). -/
def generate_mit_license (year : Nat) : List Char :=
  ("MIT License\n\nCopyright (c) ").data ++ (Nat.repr year).data
    ++ ("\n\nPermission is hereby granted, free of charge, to any person obtaining a copy\nof this software and associated documentation files (the \"Software\"), to deal\nin the Software without restriction, including without limitation the rights\nto use, copy, modify, merge, publish, distribute, sublicense, and/or sell\ncopies of the Software, and to permit persons to whom the Software is\nfurnished to do so, subject to the following conditions:\n\nThe above copyright notice and this permission notice shall be included in all\ncopies or substantial portions of the Software.\n\nTHE SOFTWARE IS PROVIDED \"AS IS\", WITHOUT WARRANTY OF ANY KIND, EXPRESS OR\nIMPLIED, INCLUDING BUT NOT LIMITED TO THE WARRANTIES OF MERCHANTABILITY,\nFITNESS FOR A PARTICULAR PURPOSE AND NONINFRINGEMENT. IN NO EVENT SHALL THE\nAUTHORS OR COPYRIGHT HOLDERS BE LIABLE FOR ANY CLAIM, DAMAGES OR OTHER\nLIABILITY, WHETHER IN AN ACTION OF CONTRACT, TORT OR OTHERWISE, ARISING FROM,\nOUT OF OR IN CONNECTION WITH THE SOFTWARE OR THE USE OR OTHER DEALINGS IN THE\nSOFTWARE.").data

/-- The idempotency key
`f"\x7bemail\x7d::\x7btask\x7d::round\x7bround\x7d::nonce\x7bnonce\x7d"`. -/
def idemKey (data : TaskRequest) : String :=
  data.email ++ "::" ++ data.task ++ "::round" ++ Nat.repr (data.round.getD 1)
    ++ "::nonce" ++ data.nonce

/-- The response dictionaries `receive_request` can return. `invalidSecret`
stands for `\x7b"error": "Invalid secret"\x7d`, `duplicate` for
`\x7b"status": "ok", "note": "duplicate handled & re-notified"\x7d`. -/
inductive Response where
  | invalidSecret
  | duplicate
  | success (task : String) (round : Nat) (repo_url : String) (pages_url : String)
      (commit_sha : String) (message : String)
  | error (message : String) (task : String)
deriving DecidableEq

/-- Lines 124–225 of `app/main.py`: the commit phase, pages enablement,
branch-head read, notification and outcome persistence for a fresh request,
after the repository has been resolved. Returns its own events; the caller
prepends the earlier ones. -/
def commitPhase (cfg : Config) (store : Store) (key task_id : String)
    (round_num : Nat) (evaluation_url : Option String) (email nonce : String)
    (files : List (String × List Char)) (ω : Oracle) :
    Response × Store × List Event :=
  let evIdx :=
    if (List.lookup ("index.html" : String) files).isSome then
      [Event.writeFile ("index.html")
        ((List.lookup ("index.html" : String) files).getD [])
        ("Round " ++ Nat.repr round_num ++ ": Add/Update index.html")
        (ω.writeOk ("index.html"))]
    else []
  let evRm :=
    if (List.lookup ("README.md" : String) files).isSome then
      [Event.writeFile ("README.md")
        ((List.lookup ("README.md" : String) files).getD [])
        ("Round " ++ Nat.repr round_num ++ ": Add/Update README.md")
        (ω.writeOk ("README.md"))]
    else []
  let license_content :=
    match List.lookup ("LICENSE" : String) files with
    | some c => c
    | none => generate_mit_license cfg.year
  let evLic :=
    [Event.writeFile ("LICENSE") license_content
      ("Round " ++ Nat.repr round_num ++ ": Add/Update LICENSE")
      (ω.writeOk ("LICENSE"))]
  let evPg := [Event.enablePages ω.pagesOk]
  let repo_url := "https://github.com/" ++ cfg.username ++ "/" ++ task_id
  let pages_url := "https://" ++ cfg.username ++ ".github.io/" ++ task_id ++ "/"
  match ω.branchSha with
  | none =>
    (Response.error ("failed to read default branch head") task_id, store,
     evIdx ++ evRm ++ evLic ++ evPg ++ [Event.readBranch])
  | some sha =>
    let outcome : Outcome :=
      { email := email, task := task_id, round := round_num, nonce := nonce,
        repo_url := repo_url, commit_sha := sha, pages_url := pages_url }
    let _ := notify_evaluation_server evaluation_url outcome ω.notifyOutcome
    (Response.success task_id round_num repo_url pages_url sha
       ("Task " ++ task_id ++ " round " ++ Nat.repr round_num
         ++ " completed successfully"),
     (key, outcome) :: store,
     evIdx ++ evRm ++ evLic ++ evPg
       ++ [Event.readBranch, Event.notifyCall evaluation_url outcome,
           Event.saveStore])

/-- Python `receive_request` from `app/main.py` (the `/ready` endpoint). -/
def receive_request (cfg : Config) (store : Store) (data : TaskRequest)
    (ω : Oracle) : Response × Store × List Event :=
  if data.secret ≠ some cfg.userSecret then
    (Response.invalidSecret, store, [])
  else
    let key := idemKey data
    match List.lookup key store with
    | some prev =>
      let _ := notify_evaluation_server data.evaluation_url prev ω.notifyOutcome
      (Response.duplicate, store, [Event.notifyCall data.evaluation_url prev])
    | none =>
      let round_num := data.round.getD 1
      let task_id := data.task
      let evD : List Event := [Event.decodeAttachments]
      let prev_readme := if round_num = 2 then ω.prevReadme else none
      let evR : List Event :=
        if round_num = 2 then [Event.readPrevReadme task_id] else []
      let gen := generate_app_code data.brief ω.savedAttachments data.checks
        round_num prev_readme ω.genApi
      let files := gen.files
      let evG : List Event := [Event.generatorCall data.brief round_num prev_readme]
      match ω.createRepo with
      | CreateRepoOutcome.created =>
        let res := commitPhase cfg store key task_id round_num
          data.evaluation_url data.email data.nonce files ω
        (res.1, res.2.1,
         evD ++ evR ++ evG ++ [Event.createRepoAttempt task_id] ++ res.2.2)
      | CreateRepoOutcome.failed _ =>
        if ω.fetchRepoOk then
          let res := commitPhase cfg store key task_id round_num
            data.evaluation_url data.email data.nonce files ω
          (res.1, res.2.1,
           evD ++ evR ++ evG
             ++ [Event.createRepoAttempt task_id, Event.fetchRepo task_id]
             ++ res.2.2)
        else
          (Response.error ("could not fetch repository") task_id, store,
           evD ++ evR ++ evG
             ++ [Event.createRepoAttempt task_id, Event.fetchRepo task_id])

/-! ## Trace predicates and concrete fixtures -/

/-- Whether an event is a prior-README read. -/
def isReadPrev (e : Event) : Bool :=
  match e with
  | Event.readPrevReadme _ => true
  | _ => false

/-- Concrete configuration used by the witnesses. -/
def cfg0 : Config := { userSecret := "S", username := "user", year := 2025 }

/-- Concrete stored Task Outcome used by the witnesses. -/
def prev0 : Outcome :=
  { email := "a@x.com", task := "demo1", round := 1, nonce := "n1",
    repo_url := "r", commit_sha := "c", pages_url := "p" }

/-- Concrete round-1 request used by the witnesses. -/
def data0 : TaskRequest :=
  { secret := some "S", email := "a@x.com", task := "demo1", round := some 1,
    nonce := "n1", brief := ("todo app").data, checks := [],
    evaluation_url := some "http://eval" }

/-- `data0` with a wrong secret. -/
def dataBad : TaskRequest := { data0 with secret := some "WRONG" }

/-- `data0` resubmitted as round 2. -/
def data2 : TaskRequest := { data0 with round := some 2 }

/-- A store already holding `data0`'s outcome under its idempotency key. -/
def store0 : Store := [(("a@x.com::demo1::round1::noncen1" : String), prev0)]

/-- An all-success collaborator oracle (live generation succeeds). -/
def ωok : Oracle :=
  { savedAttachments := [], prevReadme := none,
    genApi := Except.ok (("<h1>app</h1>---README.md---# readme").data),
    createRepo := CreateRepoOutcome.created, fetchRepoOk := true,
    writeOk := fun _ => true, pagesOk := true, branchSha := some "sha1",
    notifyOutcome := fun _ => AttemptResult.status 200 }

/-- `ωok` but the branch-head read fails. -/
def ω3 : Oracle := { ωok with branchSha := none }

/-- `ωok` but repository creation fails for a reason other than
"already exists" (and the fetch fallback succeeds). -/
def ω4 : Oracle := { ωok with createRepo := CreateRepoOutcome.failed false }

/-- `ωok` but the `LICENSE` commit fails. -/
def ωLic : Oracle :=
  { ωok with writeOk := fun p => if p == "LICENSE" then false else true }

/-- An evaluation server that always answers 500. -/
def ω500 : Nat → AttemptResult := fun _ => AttemptResult.status 500

/-- An evaluation server that answers 200 on the third attempt only. -/
def ωmix : Nat → AttemptResult :=
  fun i => if i = 2 then AttemptResult.status 200 else AttemptResult.failure

/-! ## Lemmas about the string utilities -/

/-- Occurrence characterised as a three-way decomposition. -/
theorem occursB_iff (p s : List Char) : occursB p s = true ↔ ∃ u v, s = u ++ p ++ v := by
  induction s with
  | nil =>
    simp only [occursB, decide_eq_true_eq]
    constructor
    · intro h; exact ⟨[], [], by simp [h]⟩
    · rintro ⟨u, v, h⟩
      rcases List.append_eq_nil.mp h.symm with ⟨h1, h2⟩
      exact (List.append_eq_nil.mp h1).2
  | cons c t ih =>
    simp only [occursB, Bool.or_eq_true]
    constructor
    · rintro (h | h)
      · rcases List.isPrefixOf_iff_prefix.mp h with ⟨w, hw⟩
        exact ⟨[], w, by simp [hw.symm]⟩
      · rcases ih.mp h with ⟨u, v, huv⟩
        exact ⟨c :: u, v, by simp [huv]⟩
    · rintro ⟨u, v, huv⟩
      match u, huv with
      | [], huv =>
        exact Or.inl (List.isPrefixOf_iff_prefix.mpr ⟨v, by simpa using huv.symm⟩)
      | x :: u', huv =>
        simp only [List.cons_append, List.cons.injEq] at huv
        exact Or.inr (ih.mpr ⟨u', v, huv.2⟩)

/-- An explicit decomposition witnesses an occurrence. -/
theorem occursB_of_parts {p s u v : List Char} (h : s = u ++ p ++ v) :
    occursB p s = true :=
  (occursB_iff p s).mpr ⟨u, v, h⟩

/-- An occurrence of a longer pattern contains one of any prefix of it. -/
theorem occursB_of_pattern_append {p q s : List Char}
    (h : occursB (p ++ q) s = true) : occursB p s = true := by
  rcases (occursB_iff _ _).mp h with ⟨u, v, huv⟩
  exact occursB_of_parts (s := s) (u := u) (v := q ++ v) (by simp [huv])

/-- An occurrence in `a ++ b` lies in `a`, lies in `b`, or straddles the
boundary, in which case `p` splits into a nonempty suffix of `a` and a
nonempty prefix of `b`. -/
theorem occursB_append_cases {p a b : List Char} (h : occursB p (a ++ b) = true) :
    occursB p a = true ∨ occursB p b = true ∨
      ∃ k m u v, p = k ++ m ∧ k ≠ [] ∧ m ≠ [] ∧ a = u ++ k ∧ b = m ++ v := by
  rcases (occursB_iff _ _).mp h with ⟨u, v, huv⟩
  have huv' : a ++ b = u ++ (p ++ v) := by simpa [List.append_assoc] using huv
  rcases List.append_eq_append_iff.mp huv' with ⟨w, hw1, hw2⟩ | ⟨w, hw1, hw2⟩
  · exact Or.inr (Or.inl (occursB_of_parts (u := w) (v := v) (by simp [hw2])))
  · rcases List.append_eq_append_iff.mp hw2 with ⟨m, hm1, hm2⟩ | ⟨m, hm1, hm2⟩
    · exact Or.inl (occursB_of_parts (u := u) (v := m)
        (by rw [hw1, hm1, List.append_assoc]))
    · match w, hw1, hm1 with
      | [], hw1, hm1 =>
        have hpm : p = m := by simpa using hm1
        refine Or.inr (Or.inl (occursB_of_parts (u := []) (v := v) ?_))
        rw [hm2, hpm]
        simp
      | x :: w', hw1, hm1 =>
        match m, hm1, hm2 with
        | [], hm1, hm2 =>
          have hpw : p = x :: w' := by simpa using hm1
          refine Or.inl (occursB_of_parts (u := u) (v := []) ?_)
          rw [hw1, hpw]
          simp
        | y :: m', hm1, hm2 =>
          exact Or.inr (Or.inr ⟨x :: w', y :: m', u, v, hm1, by simp, by simp,
            hw1, hm2⟩)

/-- No occurrence can appear in `a ++ b` when neither side has one and the
last character of `a` does not belong to the pattern. -/
theorem occursB_append_left {p a b : List Char} {c : Char}
    (ha : occursB p a = false) (hb : occursB p b = false)
    (hc : a.getLast? = some c) (hcp : c ∉ p) : occursB p (a ++ b) = false := by
  cases hab : occursB p (a ++ b) with
  | false => rfl
  | true =>
    rcases occursB_append_cases hab with h | h | ⟨k, m, u, v, hp, hk, _, hau, _⟩
    · rw [ha] at h; cases h
    · rw [hb] at h; cases h
    · exfalso
      have hk' : k.getLast? = some (k.getLast hk) := List.getLast?_eq_getLast k hk
      have : a.getLast? = some (k.getLast hk) := by
        rw [hau, List.getLast?_append, hk']; rfl
      rw [hc] at this
      have hck : c ∈ k := by
        have := Option.some.inj this
        rw [this]; exact List.getLast_mem hk
      exact hcp (hp ▸ List.mem_append.mpr (Or.inl hck))

/-- Symmetric variant: the first character of `b` does not belong to the
pattern. -/
theorem occursB_append_right {p a b : List Char} {c : Char}
    (ha : occursB p a = false) (hb : occursB p b = false)
    (hc : b.head? = some c) (hcp : c ∉ p) : occursB p (a ++ b) = false := by
  cases hab : occursB p (a ++ b) with
  | false => rfl
  | true =>
    rcases occursB_append_cases hab with h | h | ⟨k, m, u, v, hp, _, hm, _, hbv⟩
    · rw [ha] at h; cases h
    · rw [hb] at h; cases h
    · exfalso
      have hm' : m.head? = some (m.head hm) := List.head?_eq_head hm
      have : b.head? = some (m.head hm) := by
        rw [hbv, List.head?_append, hm']; rfl
      rw [hc] at this
      have hcm : c ∈ m := by
        have := Option.some.inj this
        rw [this]; exact List.head_mem hm
      exact hcp (hp ▸ List.mem_append.mpr (Or.inr hcm))

/-- A prefix match is an occurrence, so no occurrence means no prefix match. -/
theorem not_isPrefixOf_of_not_occursB {p s : List Char}
    (h : occursB p s = false) : p.isPrefixOf s = false := by
  cases hps : p.isPrefixOf s with
  | false => rfl
  | true =>
    rcases List.isPrefixOf_iff_prefix.mp hps with ⟨w, hw⟩
    rw [occursB_of_parts (u := []) (v := w) (by simp [hw.symm])] at h
    cases h

/-- `replaceAll` is the identity on strings without an occurrence. -/
theorem replaceAllGo_id {p : List Char} (r : List Char) :
    ∀ {s : List Char}, occursB p s = false → replaceAllGo p r s 0 = s := by
  intro s
  induction s with
  | nil => intro _; rfl
  | cons c t ih =>
    intro h
    have h' := h
    simp only [occursB, Bool.or_eq_false_iff] at h'
    simp only [replaceAllGo, h'.1, Bool.false_eq_true, if_false]
    rw [ih h'.2]

/-- `replaceAll` is the identity on strings without an occurrence. -/
theorem replaceAll_id {p r s : List Char} (h : occursB p s = false) :
    replaceAll p r s = s :=
  replaceAllGo_id r h

/-- `splitOnceAux` finds the explicitly given first occurrence, provided no
occurrence lies inside `a` and the last character of `a` is not a character
of `p` (which rules out a match straddling the `a`/`p` boundary). -/
theorem splitOnceAux_append {p b : List Char} :
    ∀ (a acc : List Char) (c : Char), a.getLast? = some c → c ∉ p →
      occursB p a = false →
      splitOnceAux p (a ++ p ++ b) acc = some (acc.reverse ++ a, b) := by
  intro a
  induction a with
  | nil => intro acc c hc _ _; cases hc
  | cons x a' ih =>
    intro acc c hc hcp hocc
    have hp : p ≠ [] := by
      intro hpnil
      rw [hpnil] at hocc
      simp [occursB, List.isPrefixOf] at hocc
    have hxrest : (x :: a') ++ p ++ b = x :: (a' ++ p ++ b) := by simp
    have hpre : p.isPrefixOf (x :: (a' ++ p ++ b)) = false := by
      cases hps : p.isPrefixOf (x :: (a' ++ p ++ b)) with
      | false => rfl
      | true =>
        exfalso
        have h1 : p <+: (x :: a') ++ (p ++ b) :=
          List.isPrefixOf_iff_prefix.mp (by simpa using hps)
        have h2 : (x :: a') <+: (x :: a') ++ (p ++ b) := List.prefix_append _ _
        rcases List.prefix_or_prefix_of_prefix h1 h2 with h | h
        · rcases h with ⟨w, hw⟩
          rw [occursB_of_parts (u := []) (v := w) (by simp [hw.symm])] at hocc
          cases hocc
        · have hmem : c ∈ x :: a' := List.mem_of_mem_getLast? (by rw [hc]; rfl)
          exact hcp (h.subset hmem)
    rw [hxrest]
    rw [splitOnceAux.eq_def]
    simp only [hpre, Bool.false_eq_true, if_false]
    match a', hc, hocc with
    | [], hc, hocc =>
      match p, hp, hcp with
      | q :: pt, _, hcp =>
        have hqpre : (q :: pt).isPrefixOf (q :: (pt ++ b)) = true :=
          List.isPrefixOf_iff_prefix.mpr
            (by simp only [← List.cons_append]; exact List.prefix_append (q :: pt) b)
        simp only [List.nil_append, List.cons_append]
        rw [splitOnceAux.eq_def]
        simp [hqpre, List.drop_left pt b, List.reverse_cons]
    | y :: a'', hc, hocc =>
      have hc' : (y :: a'').getLast? = some c := by
        rw [← List.getLast?_cons_cons (a := x)]; exact hc
      have hocc' : occursB p (y :: a'') = false := by
        rw [occursB, Bool.or_eq_false_iff] at hocc
        exact hocc.2
      rw [ih (x :: acc) c hc' hcp hocc']
      simp [List.reverse_cons, List.append_assoc]

/-- `splitOnce` splits at the explicitly given first occurrence. -/
theorem splitOnce_append {p a b : List Char} {c : Char}
    (hc : a.getLast? = some c) (hcp : c ∉ p) (hocc : occursB p a = false) :
    splitOnce p (a ++ p ++ b) = some (a, b) := by
  rw [splitOnce, splitOnceAux_append a [] c hc hcp hocc]
  rfl

/-- Stripping does nothing at a non-whitespace head. -/
theorem pyStripLeft_eq_self {s : List Char} {c : Char}
    (hh : s.head? = some c) (hc : isPySpace c = false) : pyStripLeft s = s := by
  rcases List.head?_eq_some_iff.mp hh with ⟨t, rfl⟩
  simp [pyStripLeft, hc]

/-- Stripping does nothing at a non-whitespace last character. -/
theorem pyStripRight_eq_self {s : List Char} {d : Char}
    (hl : s.getLast? = some d) (hd : isPySpace d = false) : pyStripRight s = s := by
  have hne : s ≠ [] := by
    intro h; rw [h] at hl; cases hl
  have hgl : s.getLast hne = d := by
    have := List.getLast?_eq_getLast s hne
    rw [hl] at this
    exact (Option.some.inj this).symm
  conv_lhs => rw [← List.dropLast_append_getLast hne]
  rw [pyStripRight, List.reverse_append]
  simp only [List.reverse_cons, List.reverse_nil, List.nil_append,
    List.singleton_append]
  rw [pyStripLeft, hgl, hd]
  simp only [Bool.false_eq_true, if_false]
  rw [List.reverse_cons, List.reverse_reverse, ← hgl]
  exact List.dropLast_append_getLast hne

/-- A trailing whitespace character is removed by `pyStripRight`. -/
theorem pyStripRight_concat_space {s : List Char} {d : Char}
    (hd : isPySpace d = true) : pyStripRight (s ++ [d]) = pyStripRight s := by
  rw [pyStripRight, pyStripRight, List.reverse_append]
  simp [pyStripLeft, hd]

/-- `pyStrip` does nothing when both boundary characters are non-whitespace. -/
theorem pyStrip_eq_self {s : List Char} {c d : Char}
    (hh : s.head? = some c) (hc : isPySpace c = false)
    (hl : s.getLast? = some d) (hd : isPySpace d = false) : pyStrip s = s := by
  rw [pyStrip, pyStripLeft_eq_self hh hc, pyStripRight_eq_self hl hd]

/-- A leading whitespace character is removed by `pyStripLeft`. -/
theorem pyStripLeft_cons_space {s : List Char} {c : Char}
    (hc : isPySpace c = true) : pyStripLeft (c :: s) = pyStripLeft s := by
  simp [pyStripLeft, hc]

/-- Head of an append whose left part has a head. -/
theorem head?_append_of_some {a b : List Char} {c : Char}
    (h : a.head? = some c) : (a ++ b).head? = some c := by
  rw [List.head?_append, h]; rfl

/-- Last of an append whose right part has a last. -/
theorem getLast?_append_of_some {a b : List Char} {c : Char}
    (h : b.getLast? = some c) : (a ++ b).getLast? = some c := by
  rw [List.getLast?_append, h]; rfl

/-! ## Lemmas about `notify_evaluation_server` -/

/-- An attempt fails exactly when it does not observe a 200 response. -/
theorem attemptSucceeded_eq_false_iff (a : AttemptResult) :
    attemptSucceeded a = false ↔ a ≠ AttemptResult.status 200 := by
  cases a with
  | status code =>
    simp only [attemptSucceeded, beq_eq_false_iff_ne, ne_eq,
      AttemptResult.status.injEq]
  | failure => simp [attemptSucceeded]

/-- The doubling backoff sequence grows by one entry per extra attempt. -/
theorem backoff_cons (delay f : Nat) :
    delay :: (List.range f).map (fun i => delay * 2 * 2 ^ i)
      = (List.range (f + 1)).map (fun i => delay * 2 ^ i) := by
  rw [List.range_succ_eq_map, List.map_cons, List.map_map]
  simp only [pow_zero, mul_one]
  congr 1
  apply List.map_congr_left
  intro i _
  simp only [Function.comp_apply, pow_succ]
  ring

/-- When no attempt within the remaining fuel succeeds, the loop fails, uses
all attempts, and produces the doubling backoff sequence. -/
theorem notifyGo_all_fail (outcome : Nat → AttemptResult) :
    ∀ (fuel attempt delay : Nat),
      (∀ j, j < fuel → attemptSucceeded (outcome (attempt + j)) = false) →
      notifyGo outcome fuel attempt delay =
        (false, (List.range (fuel - 1)).map (fun i => delay * 2 ^ i), fuel) := by
  intro fuel
  induction fuel with
  | zero => intro attempt delay _; rfl
  | succ f ih =>
    intro attempt delay h
    have h0 : attemptSucceeded (outcome attempt) = false := by
      have := h 0 (by omega)
      rwa [Nat.add_zero] at this
    rw [notifyGo]
    simp only [h0, Bool.false_eq_true, if_false]
    cases f with
    | zero => simp
    | succ f' =>
      have h' : ∀ j, j < f' + 1 →
          attemptSucceeded (outcome (attempt + 1 + j)) = false := by
        intro j hj
        have := h (j + 1) (by omega)
        rwa [show attempt + (j + 1) = attempt + 1 + j by omega] at this
      rw [if_neg (by omega)]
      rw [ih (attempt + 1) (delay * 2) h']
      refine Prod.ext rfl (Prod.ext ?_ rfl)
      show delay :: (List.range (f' + 1 - 1)).map (fun i => delay * 2 * 2 ^ i)
          = (List.range (f' + 1 + 1 - 1)).map (fun i => delay * 2 ^ i)
      have hbc := backoff_cons delay f'
      simpa using hbc

/-- The loop succeeds iff some attempt within the fuel observes a 200. -/
theorem notifyGo_true_iff (outcome : Nat → AttemptResult) :
    ∀ (fuel attempt delay : Nat),
      (notifyGo outcome fuel attempt delay).1 = true ↔
        ∃ j, j < fuel ∧ outcome (attempt + j) = AttemptResult.status 200 := by
  intro fuel
  induction fuel with
  | zero =>
    intro attempt delay
    simp [notifyGo]
  | succ f ih =>
    intro attempt delay
    rw [notifyGo]
    cases hsucc : attemptSucceeded (outcome attempt) with
    | true =>
      simp only [if_true]
      have h200 : outcome attempt = AttemptResult.status 200 := by
        cases ho : outcome attempt with
        | status code =>
          rw [ho] at hsucc
          simp only [attemptSucceeded, beq_iff_eq] at hsucc
          rw [hsucc]
        | failure => rw [ho] at hsucc; cases hsucc
      constructor
      · intro _; exact ⟨0, by omega, by rwa [Nat.add_zero]⟩
      · intro _; trivial
    | false =>
      have hne : outcome attempt ≠ AttemptResult.status 200 :=
        (attemptSucceeded_eq_false_iff _).mp hsucc
      simp only [Bool.false_eq_true, if_false]
      cases f with
      | zero =>
        simp only [if_pos rfl]
        constructor
        · intro h; cases h
        · rintro ⟨j, hj, hjo⟩
          interval_cases j
          rw [Nat.add_zero] at hjo
          exact absurd hjo hne
      | succ f' =>
        rw [if_neg (by omega)]
        simp only []
        rw [ih (attempt + 1) (delay * 2)]
        constructor
        · rintro ⟨j, hj, hjo⟩
          exact ⟨j + 1, by omega,
            by rwa [show attempt + (j + 1) = attempt + 1 + j by omega]⟩
        · rintro ⟨j, hj, hjo⟩
          match j, hj, hjo with
          | 0, hj, hjo =>
            rw [Nat.add_zero] at hjo
            exact absurd hjo hne
          | j' + 1, hj, hjo =>
            exact ⟨j', by omega,
              by rwa [show attempt + 1 + j' = attempt + (j' + 1) by omega]⟩

/-- Specialisation of `notifyGo_all_fail` to the actual call. -/
theorem notify_all_fail (url : Option String) (payload : Outcome)
    (outcome : Nat → AttemptResult)
    (h : ∀ i, i < 5 → outcome i ≠ AttemptResult.status 200) :
    notify_evaluation_server url payload outcome = (false, [1, 2, 4, 8], 5) := by
  rw [notify_evaluation_server,
    notifyGo_all_fail outcome 5 0 1 (by
      intro j hj
      rw [Nat.zero_add]
      exact (attemptSucceeded_eq_false_iff _).mpr (h j (by omega)))]
  decide

/-! ## Lemmas about `generate_app_code` -/

/-- The artifact set always consists of exactly the `index.html` and
`README.md` entries, in that order. -/
theorem generate_app_code_files_shape (brief : List Char) (saved : List SavedMeta)
    (checks : List (List Char)) (round_num : Nat)
    (prev_readme : Option (List Char)) (api : Except Unit (List Char)) :
    ∃ cp rp, (generate_app_code brief saved checks round_num prev_readme api).files
      = [(("index.html" : String), cp), (("README.md" : String), rp)] := by
  rw [generate_app_code.eq_def]
  generalize splitOnce readmeSep (genText brief saved checks round_num api) = o
  cases o with
  | some ab => exact ⟨_, _, rfl⟩
  | none => exact ⟨_, _, rfl⟩

/-! ## Claims -/

/-- C1: for every request whose idempotency key is already present, the
endpoint performs a pure replay: the response is the duplicate
acknowledgment, the store is unchanged, and the complete event trace is one
NotificationClient invocation carrying the stored Task Outcome — no
generator call, no repository events, no store write. -/
theorem claim1_duplicate_replay (cfg : Config) (store : Store)
    (data : TaskRequest) (ω : Oracle) (prev : Outcome)
    (hsec : data.secret = some cfg.userSecret)
    (hdup : List.lookup (idemKey data) store = some prev) :
    receive_request cfg store data ω =
      (Response.duplicate, store, [Event.notifyCall data.evaluation_url prev]) := by
  simp [receive_request, hsec, hdup]

/-- Witness for C1 at a concrete duplicate request. -/
theorem claim1_witness :
    data0.secret = some cfg0.userSecret ∧
    List.lookup (idemKey data0) store0 = some prev0 ∧
    receive_request cfg0 store0 data0 ωok =
      (Response.duplicate, store0, [Event.notifyCall data0.evaluation_url prev0]) :=
  ⟨rfl, by decide,
   claim1_duplicate_replay cfg0 store0 data0 ωok prev0 rfl (by decide)⟩

/-- C2: when no attempt succeeds, the notification loop sleeps exactly
1, 2, 4, 8 seconds between the five attempts (no sleep after the fifth) and
reports failure only after making all five attempts. -/
theorem claim2_backoff (url : Option String) (payload : Outcome)
    (outcome : Nat → AttemptResult)
    (h : ∀ i, i < 5 → outcome i ≠ AttemptResult.status 200) :
    notify_evaluation_server url payload outcome = (false, [1, 2, 4, 8], 5) :=
  notify_all_fail url payload outcome h

/-- Witness for C2 at a server that always answers 500. -/
theorem claim2_witness :
    (∀ i, i < 5 → ω500 i ≠ AttemptResult.status 200) ∧
    notify_evaluation_server none prev0 ω500 = (false, [1, 2, 4, 8], 5) :=
  ⟨fun _ _ h => absurd (AttemptResult.status.inj h) (by decide),
   claim2_backoff none prev0 ω500
     (fun _ _ h => absurd (AttemptResult.status.inj h) (by decide))⟩

/-- C8: a request whose secret does not match the configured shared secret
gets exactly the invalid-secret response, with no events at all and an
unchanged store. -/
theorem claim8_invalid_secret (cfg : Config) (store : Store)
    (data : TaskRequest) (ω : Oracle)
    (h : data.secret ≠ some cfg.userSecret) :
    receive_request cfg store data ω = (Response.invalidSecret, store, []) := by
  rw [receive_request, if_pos h]

/-- Witness for C8 at a concrete mismatching secret. -/
theorem claim8_witness :
    dataBad.secret ≠ some cfg0.userSecret ∧
    receive_request cfg0 store0 dataBad ωok = (Response.invalidSecret, store0, []) :=
  ⟨by decide, claim8_invalid_secret cfg0 store0 dataBad ωok (by decide)⟩

/-- C9: the notification operation is a total function (the embedding never
throws); it returns success iff one of the five attempts observes an HTTP
200; and when no attempt does, it returns the failure value after making all
five attempts. -/
theorem claim9_notify_total (url : Option String) (payload : Outcome)
    (outcome : Nat → AttemptResult) :
    ((notify_evaluation_server url payload outcome).1 = true ↔
      ∃ i, i < 5 ∧ outcome i = AttemptResult.status 200) ∧
    ((∀ i, i < 5 → outcome i ≠ AttemptResult.status 200) →
      (notify_evaluation_server url payload outcome).1 = false ∧
      (notify_evaluation_server url payload outcome).2.2 = 5) := by
  constructor
  · rw [notify_evaluation_server, notifyGo_true_iff]
    constructor
    · rintro ⟨j, hj, hjo⟩
      exact ⟨j, hj, by rwa [Nat.zero_add] at hjo⟩
    · rintro ⟨j, hj, hjo⟩
      exact ⟨j, hj, by rwa [Nat.zero_add]⟩
  · intro h
    rw [notify_all_fail url payload outcome h]
    exact ⟨rfl, rfl⟩

/-- Witness for C9: a success on the third attempt yields a success result. -/
theorem claim9_witness : (notify_evaluation_server none prev0 ωmix).1 = true :=
  ((claim9_notify_total none prev0 ωmix).1).mpr ⟨2, by omega, by simp [ωmix]⟩

/-- C6: in a fresh valid-secret run, a round-2 request performs exactly one
prior-README read, before the generator call, and the generator receives
whatever the read produced (`none` when it failed) — the run never aborts
there; a round-1 request performs no prior-README read. -/
theorem claim6_round_gating (cfg : Config) (store : Store) (data : TaskRequest)
    (ω : Oracle)
    (hsec : data.secret = some cfg.userSecret)
    (hfresh : List.lookup (idemKey data) store = none) :
    (data.round.getD 1 = 2 →
      ∃ post, (receive_request cfg store data ω).2.2 =
        [Event.decodeAttachments, Event.readPrevReadme data.task,
         Event.generatorCall data.brief 2 ω.prevReadme] ++ post ∧
        post.countP (fun e => isReadPrev e) = 0) ∧
    (data.round.getD 1 = 1 →
      ((receive_request cfg store data ω).2.2).countP (fun e => isReadPrev e) = 0) := by
  constructor
  · intro h2
    obtain ⟨cp, rp, hfiles⟩ := generate_app_code_files_shape data.brief
      ω.savedAttachments data.checks 2 ω.prevReadme ω.genApi
    rcases hcr : ω.createRepo with _ | aex <;>
      rcases hbs : ω.branchSha with _ | sha <;>
      rcases hf : ω.fetchRepoOk with _ | _ <;>
      simp [receive_request, hsec, hfresh, h2, commitPhase, hcr, hbs, hf,
        isReadPrev, hfiles, List.lookup]
  · intro h1
    obtain ⟨cp, rp, hfiles⟩ := generate_app_code_files_shape data.brief
      ω.savedAttachments data.checks 1 none ω.genApi
    rcases hcr : ω.createRepo with _ | aex <;>
      rcases hbs : ω.branchSha with _ | sha <;>
      rcases hf : ω.fetchRepoOk with _ | _ <;>
      simp [receive_request, hsec, hfresh, h1, commitPhase, hcr, hbs, hf,
        isReadPrev, hfiles, List.lookup]

/-- Witness for C6 at a concrete round-2 request whose prior-README read
fails (`ωok.prevReadme = none`). -/
theorem claim6_witness :
    (data2.round.getD 1 = 2 →
      ∃ post, (receive_request cfg0 [] data2 ωok).2.2 =
        [Event.decodeAttachments, Event.readPrevReadme data2.task,
         Event.generatorCall data2.brief 2 ωok.prevReadme] ++ post ∧
        post.countP (fun e => isReadPrev e) = 0) ∧
    (data2.round.getD 1 = 1 →
      ((receive_request cfg0 [] data2 ωok).2.2).countP (fun e => isReadPrev e) = 0) :=
  claim6_round_gating cfg0 [] data2 ωok rfl (by decide)

/-- C3 is refuted: in a run reaching the post-commit resolution step whose
branch-head read fails, the task ends in the error state with nothing
persisted — no sentinel "unknown" commit identifier is substituted. -/
theorem claim3_counterexample :
    (receive_request cfg0 [] data0 ω3).1 =
      Response.error ("failed to read default branch head") ("demo1") ∧
    (receive_request cfg0 [] data0 ω3).2.1 = [] := by
  constructor
  · decide
  · decide

/-- C3 amended: when the repository has been resolved but the branch-head
read fails, the exception propagates to the task-level handler: the task
ends in the error state, no outcome is persisted, and neither a notification
nor a store write happens; no sentinel is substituted. -/
theorem claim3_amended (cfg : Config) (store : Store) (data : TaskRequest)
    (ω : Oracle)
    (hsec : data.secret = some cfg.userSecret)
    (hfresh : List.lookup (idemKey data) store = none)
    (hres : ω.createRepo = CreateRepoOutcome.created ∨ ω.fetchRepoOk = true)
    (hbs : ω.branchSha = none) :
    (receive_request cfg store data ω).1 =
      Response.error ("failed to read default branch head") data.task ∧
    (receive_request cfg store data ω).2.1 = store ∧
    (∀ u p, Event.notifyCall u p ∉ (receive_request cfg store data ω).2.2) ∧
    Event.saveStore ∉ (receive_request cfg store data ω).2.2 := by
  obtain ⟨cp, rp, hfiles⟩ := generate_app_code_files_shape data.brief
    ω.savedAttachments data.checks (data.round.getD 1)
    (if data.round.getD 1 = 2 then ω.prevReadme else none) ω.genApi
  rcases hres with hcr | hf
  · by_cases h2 : data.round.getD 1 = 2 <;>
      simp [h2] at hfiles <;>
      simp [receive_request, hsec, hfresh, commitPhase, List.lookup, hcr, hbs,
        h2, hfiles]
  · rcases hcr : ω.createRepo with _ | aex <;>
      by_cases h2 : data.round.getD 1 = 2 <;>
      simp [h2] at hfiles <;>
      simp [receive_request, hsec, hfresh, commitPhase, List.lookup, hcr, hf,
        hbs, h2, hfiles]

/-- Witness for C3's amended statement at a concrete input. -/
theorem claim3_witness :
    (receive_request cfg0 [] data0 ω3).1 =
      Response.error ("failed to read default branch head") data0.task ∧
    (receive_request cfg0 [] data0 ω3).2.1 = [] ∧
    (∀ u p, Event.notifyCall u p ∉ (receive_request cfg0 [] data0 ω3).2.2) ∧
    Event.saveStore ∉ (receive_request cfg0 [] data0 ω3).2.2 :=
  claim3_amended cfg0 [] data0 ω3 rfl (by decide) (Or.inl rfl) rfl

/-- C4 is refuted: a repository-creation failure whose cause is not
"already exists" still triggers the fetch fallback, and when the fetch
succeeds the task proceeds to full success — it is not fatal and the fetch
is attempted. -/
theorem claim4_counterexample :
    (receive_request cfg0 [] data0 ω4).1 =
      Response.success ("demo1") 1 ("https://github.com/user/demo1")
        ("https://user.github.io/demo1/") ("sha1")
        ("Task demo1 round 1 completed successfully") ∧
    Event.fetchRepo ("demo1") ∈ (receive_request cfg0 [] data0 ω4).2.2 := by
  constructor
  · decide
  · decide

/-- C4 amended: every creation failure, whatever its cause, triggers the
fetch fallback; the failure is fatal (error response, store unchanged)
exactly when the fetch also fails, and otherwise the run proceeds to the
commit phase. -/
theorem claim4_amended (cfg : Config) (store : Store) (data : TaskRequest)
    (ω : Oracle) (b : Bool)
    (hsec : data.secret = some cfg.userSecret)
    (hfresh : List.lookup (idemKey data) store = none)
    (hcr : ω.createRepo = CreateRepoOutcome.failed b) :
    Event.fetchRepo data.task ∈ (receive_request cfg store data ω).2.2 ∧
    (ω.fetchRepoOk = false →
      (receive_request cfg store data ω).1 =
        Response.error ("could not fetch repository") data.task ∧
      (receive_request cfg store data ω).2.1 = store) ∧
    (ω.fetchRepoOk = true →
      ∃ c m ok, Event.writeFile ("LICENSE") c m ok ∈
        (receive_request cfg store data ω).2.2) := by
  obtain ⟨cp, rp, hfiles⟩ := generate_app_code_files_shape data.brief
    ω.savedAttachments data.checks (data.round.getD 1)
    (if data.round.getD 1 = 2 then ω.prevReadme else none) ω.genApi
  by_cases h2 : data.round.getD 1 = 2 <;>
    simp [h2] at hfiles <;>
    rcases hf : ω.fetchRepoOk with _ | _ <;>
    rcases hbs : ω.branchSha with _ | sha <;>
    simp [receive_request, hsec, hfresh, commitPhase, List.lookup, hcr, hf,
      hbs, h2, hfiles]

/-- Witness for C4's amended statement at a concrete non-"already exists"
creation failure. -/
theorem claim4_witness :
    Event.fetchRepo data0.task ∈ (receive_request cfg0 [] data0 ω4).2.2 ∧
    (ω4.fetchRepoOk = false →
      (receive_request cfg0 [] data0 ω4).1 =
        Response.error ("could not fetch repository") data0.task ∧
      (receive_request cfg0 [] data0 ω4).2.1 = []) ∧
    (ω4.fetchRepoOk = true →
      ∃ c m ok, Event.writeFile ("LICENSE") c m ok ∈
        (receive_request cfg0 [] data0 ω4).2.2) :=
  claim4_amended cfg0 [] data0 ω4 false rfl (by decide) rfl

/-- C7: in a fresh valid-secret run whose repository resolution succeeds,
all three per-file writes (index.html, README.md, and LICENSE — synthesized
locally) are attempted whatever the individual write outcomes `ω.writeOk`
are — each event records its own outcome, so any single write failing
(first, second or third in the index → README → LICENSE order) never
prevents the other attempts — and the run still ends in the terminal
success response carrying the computed repository and pages URLs,
regardless of which writes failed. The claim's scenario (LICENSE fails,
the other two succeed) is the instance exercised by the witness. -/
theorem claim7_partial_commit (cfg : Config) (store : Store) (data : TaskRequest)
    (ω : Oracle) (sha : String)
    (hsec : data.secret = some cfg.userSecret)
    (hfresh : List.lookup (idemKey data) store = none)
    (hres : ω.createRepo = CreateRepoOutcome.created ∨ ω.fetchRepoOk = true)
    (hbs : ω.branchSha = some sha) :
    (∃ c m, Event.writeFile ("index.html") c m (ω.writeOk ("index.html")) ∈
      (receive_request cfg store data ω).2.2) ∧
    (∃ c m, Event.writeFile ("README.md") c m (ω.writeOk ("README.md")) ∈
      (receive_request cfg store data ω).2.2) ∧
    (∃ m, Event.writeFile ("LICENSE") (generate_mit_license cfg.year) m
      (ω.writeOk ("LICENSE")) ∈ (receive_request cfg store data ω).2.2) ∧
    (receive_request cfg store data ω).1 =
      Response.success data.task (data.round.getD 1)
        ("https://github.com/" ++ cfg.username ++ "/" ++ data.task)
        ("https://" ++ cfg.username ++ ".github.io/" ++ data.task ++ "/") sha
        ("Task " ++ data.task ++ " round " ++ Nat.repr (data.round.getD 1)
          ++ " completed successfully") := by
  obtain ⟨cp, rp, hfiles⟩ := generate_app_code_files_shape data.brief
    ω.savedAttachments data.checks (data.round.getD 1)
    (if data.round.getD 1 = 2 then ω.prevReadme else none) ω.genApi
  rcases hres with hcr | hf
  · by_cases h2 : data.round.getD 1 = 2 <;>
      simp [h2] at hfiles <;>
      simp [receive_request, hsec, hfresh, commitPhase, List.lookup, hcr, hbs,
        h2, hfiles]
  · rcases hcr : ω.createRepo with _ | aex <;>
      by_cases h2 : data.round.getD 1 = 2 <;>
      simp [h2] at hfiles <;>
      simp [receive_request, hsec, hfresh, commitPhase, List.lookup, hcr, hf,
        hbs, h2, hfiles]

/-- Witness for C7 at a concrete run whose LICENSE write fails while the
other two succeed (`ωLic.writeOk` is true except on LICENSE). -/
theorem claim7_witness :
    (∃ c m, Event.writeFile ("index.html") c m (ωLic.writeOk ("index.html")) ∈
      (receive_request cfg0 [] data0 ωLic).2.2) ∧
    (∃ c m, Event.writeFile ("README.md") c m (ωLic.writeOk ("README.md")) ∈
      (receive_request cfg0 [] data0 ωLic).2.2) ∧
    (∃ m, Event.writeFile ("LICENSE") (generate_mit_license cfg0.year) m
      (ωLic.writeOk ("LICENSE")) ∈ (receive_request cfg0 [] data0 ωLic).2.2) ∧
    (receive_request cfg0 [] data0 ωLic).1 =
      Response.success data0.task (data0.round.getD 1)
        ("https://github.com/" ++ cfg0.username ++ "/" ++ data0.task)
        ("https://" ++ cfg0.username ++ ".github.io/" ++ data0.task ++ "/") ("sha1")
        ("Task " ++ data0.task ++ " round " ++ Nat.repr (data0.round.getD 1)
          ++ " completed successfully") :=
  claim7_partial_commit cfg0 [] data0 ωLic "sha1" rfl (by decide) (Or.inl rfl)
    rfl

/-- C10: the Generator's artifact set always has exactly the entries
`index.html` and `README.md` (never `LICENSE`), for every brief, attachment
list, check list, round, prior README and live-call outcome; consequently,
every LICENSE write the publish phase performs carries the locally
synthesized MIT license text. -/
theorem claim10_artifact_keys :
    (∀ brief saved checks round_num prev_readme api, ∃ cp rp,
      (generate_app_code brief saved checks round_num prev_readme api).files =
        [(("index.html" : String), cp), (("README.md" : String), rp)]) ∧
    (∀ (cfg : Config) (store : Store) (data : TaskRequest) (ω : Oracle) c m ok,
      Event.writeFile ("LICENSE") c m ok ∈ (receive_request cfg store data ω).2.2 →
      c = generate_mit_license cfg.year) := by
  constructor
  · exact generate_app_code_files_shape
  · intro cfg store data ω c m ok hmem
    by_cases hsec : data.secret = some cfg.userSecret
    · rcases hdup : List.lookup (idemKey data) store with _ | prev
      · obtain ⟨cp, rp, hfiles⟩ := generate_app_code_files_shape data.brief
          ω.savedAttachments data.checks (data.round.getD 1)
          (if data.round.getD 1 = 2 then ω.prevReadme else none) ω.genApi
        by_cases h2 : data.round.getD 1 = 2 <;>
          simp [h2] at hfiles <;>
          rcases hcr : ω.createRepo with _ | aex <;>
          rcases hf : ω.fetchRepoOk with _ | _ <;>
          rcases hbs : ω.branchSha with _ | sha <;>
          simp [receive_request, hsec, hdup, commitPhase, List.lookup, hcr,
            hf, hbs, h2, hfiles] at hmem <;>
          tauto
      · have hrun : receive_request cfg store data ω =
            (Response.duplicate, store,
             [Event.notifyCall data.evaluation_url prev]) := by
          simp [receive_request, hsec, hdup]
        rw [hrun] at hmem
        simp at hmem
    · rw [receive_request, if_pos hsec] at hmem
      simp at hmem

/-- Witness for C10: the concrete shape of a run's artifact set, plus the
LICENSE content extracted from a concrete run. -/
theorem claim10_witness :
    (∃ cp rp, (generate_app_code (("todo app").data) [] [] 1 none
        (Except.ok (("x---README.md---y").data))).files =
      [(("index.html" : String), cp), (("README.md" : String), rp)]) ∧
    ((∃ m ok, Event.writeFile ("LICENSE") (generate_mit_license 2025) m ok ∈
        (receive_request cfg0 [] data0 ωok).2.2)) := by
  constructor
  · exact claim10_artifact_keys.1 (("todo app").data) [] [] 1 none
      (Except.ok (("x---README.md---y").data))
  · exact ⟨("Round 1: Add/Update LICENSE"), true, by decide⟩

/-! ## The Generator fallback guarantee (claim C5) -/

/-- An occurrence survives appending on the right. -/
theorem occursB_mono_left {p a : List Char} (b : List Char)
    (h : occursB p a = true) : occursB p (a ++ b) = true := by
  rcases (occursB_iff _ _).mp h with ⟨u, v, huv⟩
  exact occursB_of_parts (u := u) (v := v ++ b) (by simp [huv])

/-- No occurrence of a pattern implies none of any extension of it. -/
theorem occursB_append_pattern_false {p q s : List Char}
    (h : occursB p s = false) : occursB (p ++ q) s = false := by
  cases hpq : occursB (p ++ q) s with
  | false => rfl
  | true => rw [occursB_of_pattern_append hpq] at h; cases h

/-- The fallback HTML contains no code-fence marker when the brief has none
(the template is backtick-free and the boundary characters are a space and a
newline). -/
theorem html_no_tb {brief : List Char} (hb : occursB tb brief = false) :
    occursB tb (generate_fallback_html brief) = false := by
  rw [generate_fallback_html]
  refine occursB_append_right ?_ (by decide) (c := '\n') (by decide) (by decide)
  exact occursB_append_left (by decide) hb (c := ' ') (by decide) (by decide)

/-- The fallback HTML contains no part separator when the brief has none. -/
theorem html_no_sep {brief : List Char} (hb : occursB readmeSep brief = false) :
    occursB readmeSep (generate_fallback_html brief) = false := by
  rw [generate_fallback_html]
  refine occursB_append_right ?_ (by decide) (c := '\n') (by decide) (by decide)
  exact occursB_append_left (by decide) hb (c := ' ') (by decide) (by decide)

/-- Head of the fallback HTML. -/
theorem html_head (brief : List Char) :
    (generate_fallback_html brief).head? = some '<' := by
  rw [generate_fallback_html]
  exact head?_append_of_some (head?_append_of_some (by decide))

/-- Last character of the fallback HTML. -/
theorem html_last (brief : List Char) :
    (generate_fallback_html brief).getLast? = some '>' := by
  rw [generate_fallback_html]
  exact getLast?_append_of_some (by decide)

/-- The rendered requirements block is code-fence free when every check is. -/
theorem items_no_tb (cs : List (List Char))
    (hcs : ∀ c ∈ cs, occursB tb c = false) :
    occursB tb (cs.foldr (fun c acc => ("- ").data ++ c ++ '\n' :: acc) []) = false := by
  induction cs with
  | nil => decide
  | cons c cs ih =>
    simp only [List.foldr_cons]
    have hrest := ih (fun x hx => hcs x (List.mem_cons_of_mem _ hx))
    have hc0 := hcs c (List.mem_cons_self _ _)
    refine occursB_append_right ?_ ?_ (c := '\n') rfl (by decide)
    · exact occursB_append_left (by decide) hc0 (c := ' ') (by decide) (by decide)
    · rw [← List.singleton_append]
      exact occursB_append_left (by decide) hrest (c := '\n') (by decide) (by decide)

/-- The README fallback is code-fence free when the brief, every check and
the attachment summary are (rounds 1 and 2). -/
theorem readme_no_tb {brief : List Char} {checks : List (List Char)}
    {meta : List Char} {round_num : Nat}
    (hb : occursB tb brief = false)
    (hchecks : ∀ c ∈ checks, occursB tb c = false)
    (hmeta : occursB tb meta = false)
    (hround : round_num = 1 ∨ round_num = 2) :
    occursB tb (generate_readme_fallback brief checks meta round_num) = false := by
  have hrnd1 : occursB tb ((Nat.repr round_num).data) = false := by
    rcases hround with h | h <;> subst h <;> decide
  obtain ⟨d, hdl, hdp, hdh⟩ : ∃ d, ((Nat.repr round_num).data).getLast? = some d ∧
      d ∉ tb ∧ ((Nat.repr round_num).data).head? = some d := by
    rcases hround with h | h <;> subst h
    · exact ⟨'1', by decide, by decide, by decide⟩
    · exact ⟨'2', by decide, by decide, by decide⟩
  have hbase : occursB tb (readmeHeader ++ brief ++ readmeRoundPre
      ++ (Nat.repr round_num).data ++ ("\n\n").data) = false := by
    refine occursB_append_left ?_ (by decide) (c := d)
      (getLast?_append_of_some hdl) hdp
    refine occursB_append_right ?_ hrnd1 (c := d) hdh hdp
    refine occursB_append_right ?_ (by decide) (c := '\n') (by decide) (by decide)
    exact occursB_append_left (by decide) hb (c := '\n') (by decide) (by decide)
  have hitems := items_no_tb checks hchecks
  have hblock : occursB tb ((readmeHeader ++ brief ++ readmeRoundPre
      ++ (Nat.repr round_num).data ++ ("\n\n").data) ++ ("## Requirements\n").data
      ++ (checks.foldr (fun c acc => ("- ").data ++ c ++ '\n' :: acc) [])
      ++ ("\n").data) = false := by
    refine occursB_append_right ?_ (by decide) (c := '\n') (by decide) (by decide)
    refine occursB_append_left ?_ hitems (c := '\n')
      (getLast?_append_of_some (by decide)) (by decide)
    exact occursB_append_right hbase (by decide) (c := '#') (by decide) (by decide)
  simp only [generate_readme_fallback]
  by_cases hc : checks = []
  · by_cases hm : meta = []
    · rw [if_pos hm, if_pos hc]
      exact occursB_append_right hbase (by decide) (c := '#') (by decide) (by decide)
    · rw [if_neg hm, if_pos hc]
      refine occursB_append_right ?_ (by decide) (c := '#') (by decide) (by decide)
      refine occursB_append_right ?_ (by decide) (c := '\n') (by decide) (by decide)
      refine occursB_append_left ?_ hmeta (c := '\n')
        (getLast?_append_of_some (by decide)) (by decide)
      exact occursB_append_right hbase (by decide) (c := '#') (by decide) (by decide)
  · by_cases hm : meta = []
    · rw [if_pos hm, if_neg hc]
      exact occursB_append_right hblock (by decide) (c := '#') (by decide) (by decide)
    · rw [if_neg hm, if_neg hc]
      refine occursB_append_right ?_ (by decide) (c := '#') (by decide) (by decide)
      refine occursB_append_right ?_ (by decide) (c := '\n') (by decide) (by decide)
      refine occursB_append_left ?_ hmeta (c := '\n')
        (getLast?_append_of_some (by decide)) (by decide)
      exact occursB_append_right hblock (by decide) (c := '#') (by decide) (by decide)

/-- The README fallback always decomposes as header, brief, round marker,
then a remainder. -/
theorem readme_decomp (brief : List Char) (checks : List (List Char))
    (meta : List Char) (round_num : Nat) :
    ∃ V, generate_readme_fallback brief checks meta round_num =
      readmeHeader ++ brief ++ (readmeRoundPre ++ V) := by
  simp only [generate_readme_fallback]
  by_cases hc : checks = []
  · by_cases hm : meta = []
    · rw [if_pos hm, if_pos hc]
      exact ⟨(Nat.repr round_num).data ++ ("\n\n").data ++ readmeUsage,
        by simp [List.append_assoc]⟩
    · rw [if_neg hm, if_pos hc]
      exact ⟨(Nat.repr round_num).data ++ ("\n\n").data ++ ("## Attachments\n").data
          ++ meta ++ ("\n\n").data ++ readmeUsage,
        by simp [List.append_assoc]⟩
  · by_cases hm : meta = []
    · rw [if_pos hm, if_neg hc]
      exact ⟨(Nat.repr round_num).data ++ ("\n\n").data ++ ("## Requirements\n").data
          ++ (checks.foldr (fun c acc => ("- ").data ++ c ++ '\n' :: acc) [])
          ++ ("\n").data ++ readmeUsage,
        by simp [List.append_assoc]⟩
    · rw [if_neg hm, if_neg hc]
      exact ⟨(Nat.repr round_num).data ++ ("\n\n").data ++ ("## Requirements\n").data
          ++ (checks.foldr (fun c acc => ("- ").data ++ c ++ '\n' :: acc) [])
          ++ ("\n").data ++ ("## Attachments\n").data ++ meta ++ ("\n\n").data
          ++ readmeUsage,
        by simp [List.append_assoc]⟩

/-- The README fallback always ends with the usage block. -/
theorem readme_usage_suffix (brief : List Char) (checks : List (List Char))
    (meta : List Char) (round_num : Nat) :
    ∃ Z, generate_readme_fallback brief checks meta round_num =
      Z ++ readmeUsage := by
  simp only [generate_readme_fallback]
  exact ⟨_, rfl⟩

/-- The README fallback starts with a hash character. -/
theorem readme_head (brief : List Char) (checks : List (List Char))
    (meta : List Char) (round_num : Nat) :
    (generate_readme_fallback brief checks meta round_num).head? = some '#' := by
  obtain ⟨V, hV⟩ := readme_decomp brief checks meta round_num
  rw [hV]
  exact head?_append_of_some (head?_append_of_some (by decide))

/-- The README fallback ends with a newline. -/
theorem readme_last (brief : List Char) (checks : List (List Char))
    (meta : List Char) (round_num : Nat) :
    (generate_readme_fallback brief checks meta round_num).getLast? = some '\n' := by
  obtain ⟨Z, hZ⟩ := readme_usage_suffix brief checks meta round_num
  rw [hZ]
  exact getLast?_append_of_some (by decide)

/-- Stripping the README part of the fallback document leaves a non-empty
text that still contains the brief verbatim. -/
theorem readme_strip (brief : List Char) (checks : List (List Char))
    (meta : List Char) (round_num : Nat)
    (hb : occursB tb brief = false)
    (hchecks : ∀ c ∈ checks, occursB tb c = false)
    (hmeta : occursB tb meta = false)
    (hround : round_num = 1 ∨ round_num = 2) :
    strip_code_block ('\n' :: generate_readme_fallback brief checks meta round_num) ≠ [] ∧
    occursB brief (strip_code_block
      ('\n' :: generate_readme_fallback brief checks meta round_num)) = true := by
  obtain ⟨Z, hZ⟩ := readme_usage_suffix brief checks meta round_num
  obtain ⟨V, hV⟩ := readme_decomp brief checks meta round_num
  have hHd := readme_head brief checks meta round_num
  have hNo := readme_no_tb hb hchecks hmeta hround
  set R := generate_readme_fallback brief checks meta round_num with hRdef
  have husage : readmeUsage = readmeUsage.dropLast ++ [('\n' : Char)] := by decide
  have hR2 : R = (Z ++ readmeUsage.dropLast) ++ [('\n' : Char)] := by
    rw [hZ]
    conv_lhs => rw [husage]
    rw [← List.append_assoc]
  -- the single strip pass
  have hleft : pyStripLeft ('\n' :: R) = R := by
    rw [pyStripLeft_cons_space (by decide)]
    exact pyStripLeft_eq_self hHd (by decide)
  have hs1 : pyStrip ('\n' :: R) = Z ++ readmeUsage.dropLast := by
    rw [pyStrip, hleft, hR2, pyStripRight_concat_space (by decide)]
    exact pyStripRight_eq_self (d := '*') (getLast?_append_of_some (by decide))
      (by decide)
  -- the stripped text has no code-fence markers
  have hs1_no_tb : occursB tb (Z ++ readmeUsage.dropLast) = false := by
    cases hx : occursB tb (Z ++ readmeUsage.dropLast) with
    | false => rfl
    | true =>
      exfalso
      have h2 := occursB_mono_left [('\n' : Char)] hx
      rw [← hR2, hNo] at h2
      cases h2
  have hs1_no_tbh : occursB tbHtml (Z ++ readmeUsage.dropLast) = false := by
    have he : tbHtml = tb ++ ("html").data := by decide
    rw [he]
    exact occursB_append_pattern_false hs1_no_tb
  have hs1_no_tbm : occursB tbMarkdown (Z ++ readmeUsage.dropLast) = false := by
    have he : tbMarkdown = tb ++ ("markdown").data := by decide
    rw [he]
    exact occursB_append_pattern_false hs1_no_tb
  -- head of the stripped text
  have hhead : (Z ++ readmeUsage.dropLast).head? = some '#' := by
    rcases hx : (Z ++ readmeUsage.dropLast).head? with _ | c
    · exfalso
      have hnil : Z ++ readmeUsage.dropLast = [] := List.head?_eq_none_iff.mp hx
      rw [hnil] at hR2
      rw [hR2] at hHd
      cases hHd
    · have hRc : R.head? = some c := by
        rw [hR2]
        exact head?_append_of_some hx
      rw [hHd] at hRc
      exact hRc.symm
  -- the full strip_code_block computation
  have hrp : strip_code_block ('\n' :: R) = Z ++ readmeUsage.dropLast := by
    simp only [strip_code_block]
    rw [hs1, replaceAll_id hs1_no_tbh, replaceAll_id hs1_no_tbm,
      replaceAll_id hs1_no_tb]
    exact pyStrip_eq_self (c := '#') (d := '*') hhead (by decide)
      (getLast?_append_of_some (by decide)) (by decide)
  constructor
  · rw [hrp]
    intro h
    rw [h] at hhead
    cases hhead
  · rw [hrp]
    -- surgery: peel the final newline off the decomposition through the brief
    have hWne : readmeRoundPre ++ V ≠ [] := by
      intro h
      exact absurd (List.append_eq_nil.mp h).1 (by decide)
    have hWlast : (readmeRoundPre ++ V).getLast? = some '\n' := by
      have hRl := readme_last brief checks meta round_num
      rw [← hRdef, hV, List.getLast?_append] at hRl
      rcases hw : (readmeRoundPre ++ V).getLast? with _ | w
      · exact absurd (List.getLast?_eq_none_iff.mp hw) hWne
      · rw [hw, Option.or_some] at hRl
        exact hRl
  -- W = W.dropLast ++ ['\n']
    have hWd : readmeRoundPre ++ V =
        (readmeRoundPre ++ V).dropLast ++ [('\n' : Char)] := by
      have h1 := List.dropLast_append_getLast hWne
      have h2 := List.getLast?_eq_getLast (readmeRoundPre ++ V) hWne
      rw [hWlast] at h2
      conv_lhs => rw [← h1]
      rw [← Option.some.inj h2]
    have hext : (Z ++ readmeUsage.dropLast) ++ [('\n' : Char)] =
        ((readmeHeader ++ brief) ++ (readmeRoundPre ++ V).dropLast)
          ++ [('\n' : Char)] := by
      rw [← hR2, hV]
      conv_lhs => rw [hWd]
      rw [← List.append_assoc]
    have hcancel : Z ++ readmeUsage.dropLast =
        (readmeHeader ++ brief) ++ (readmeRoundPre ++ V).dropLast :=
      List.append_cancel_right hext
    rw [hcancel]
    exact occursB_of_parts rfl

/-- `pyStripLeft` keeps a suffix of its input. -/
theorem pyStripLeft_suffix (s : List Char) : ∃ w, s = w ++ pyStripLeft s := by
  induction s with
  | nil => exact ⟨[], rfl⟩
  | cons c t ih =>
    by_cases hc : isPySpace c = true
    · obtain ⟨w, hw⟩ := ih
      refine ⟨c :: w, ?_⟩
      rw [pyStripLeft_cons_space hc, List.cons_append, ← hw]
    · refine ⟨[], ?_⟩
      rw [pyStripLeft_eq_self (show (c :: t).head? = some c from rfl)
        (Bool.eq_false_iff.mpr hc), List.nil_append]

/-- If stripping removed everything, everything was whitespace. -/
theorem pyStripLeft_eq_nil {s : List Char} (h : pyStripLeft s = []) :
    ∀ c ∈ s, isPySpace c = true := by
  induction s with
  | nil => intro c hc; cases hc
  | cons x t ih =>
    intro c hc
    by_cases hx : isPySpace x = true
    · rw [pyStripLeft_cons_space hx] at h
      rcases List.mem_cons.mp hc with rfl | hct
      · exact hx
      · exact ih h c hct
    · rw [pyStripLeft_eq_self (show (x :: t).head? = some x from rfl)
        (Bool.eq_false_iff.mpr hx)] at h
      cases h

/-- A non-whitespace member survives `pyStripLeft`. -/
theorem mem_pyStripLeft {s : List Char} {c : Char} (hc : c ∈ s)
    (hws : isPySpace c = false) : c ∈ pyStripLeft s := by
  induction s with
  | nil => cases hc
  | cons x t ih =>
    by_cases hx : isPySpace x = true
    · rw [pyStripLeft_cons_space hx]
      rcases List.mem_cons.mp hc with rfl | hct
      · rw [hx] at hws; cases hws
      · exact ih hct
    · rw [pyStripLeft_eq_self (show (x :: t).head? = some x from rfl)
        (Bool.eq_false_iff.mpr hx)]
      exact hc

/-- A non-whitespace member survives `pyStripRight`. -/
theorem mem_pyStripRight {s : List Char} {c : Char} (hc : c ∈ s)
    (hws : isPySpace c = false) : c ∈ pyStripRight s := by
  rw [pyStripRight, List.mem_reverse]
  exact mem_pyStripLeft (List.mem_reverse.mpr hc) hws

/-- A non-whitespace member survives `pyStrip`. -/
theorem mem_pyStrip {s : List Char} {c : Char} (hc : c ∈ s)
    (hws : isPySpace c = false) : c ∈ pyStrip s :=
  mem_pyStripRight (mem_pyStripLeft hc hws) hws

/-- `pyStripRight` keeps a non-whitespace head. -/
theorem pyStripRight_head {s : List Char} {c : Char} (hh : s.head? = some c)
    (hws : isPySpace c = false) : (pyStripRight s).head? = some c := by
  have hcmem : c ∈ s := by
    rcases List.head?_eq_some_iff.mp hh with ⟨t, rfl⟩
    exact List.mem_cons_self _ _
  have hne : pyStripRight s ≠ [] := by
    intro h
    rw [pyStripRight, List.reverse_eq_nil_iff] at h
    have := pyStripLeft_eq_nil h c (List.mem_reverse.mpr hcmem)
    rw [hws] at this
    cases this
  obtain ⟨w, hw⟩ := pyStripLeft_suffix s.reverse
  have hpre : s = pyStripRight s ++ w.reverse := by
    conv_lhs => rw [← List.reverse_reverse s, hw]
    rw [List.reverse_append, pyStripRight]
  rcases hx : pyStripRight s with _ | ⟨d, t⟩
  · exact absurd hx hne
  · rw [hx] at hpre
    rw [hpre, List.cons_append, List.head?_cons, Option.some.injEq] at hh
    rw [List.head?_cons, Option.some.injEq]
    exact hh

/-- `pyStrip` keeps a non-whitespace head. -/
theorem pyStrip_head {s : List Char} {c : Char} (hh : s.head? = some c)
    (hws : isPySpace c = false) : (pyStrip s).head? = some c := by
  rw [pyStrip, pyStripLeft_eq_self hh hws]
  exact pyStripRight_head hh hws

/-- The scan step copies a head that cannot start a match. -/
theorem replaceAllGo_cons_nomatch {q : Char} {pt r t : List Char} {c : Char}
    (h : c ≠ q) :
    replaceAllGo (q :: pt) r (c :: t) 0 = c :: replaceAllGo (q :: pt) r t 0 := by
  rw [replaceAllGo]
  have hpre : (q :: pt).isPrefixOf (c :: t) = false := by
    simp [List.isPrefixOf, Ne.symm h]
  rw [hpre]
  simp

/-- A character outside the pattern survives `replaceAllGo`, also through
the skipped tail of a replaced occurrence. -/
theorem mem_replaceAllGo {p r : List Char} {c : Char} (hp : p ≠ [])
    (hcp : c ∉ p) :
    ∀ (s : List Char) (skip : Nat), c ∈ List.drop skip s →
      c ∈ replaceAllGo p r s skip := by
  intro s
  induction s with
  | nil => intro skip hc; rw [List.drop_nil] at hc; cases hc
  | cons x t ih =>
    intro skip hc
    cases skip with
    | succ m =>
      rw [replaceAllGo]
      exact ih m (by simpa using hc)
    | zero =>
      obtain ⟨q, pt, rfl⟩ : ∃ q pt, p = q :: pt := by
        cases p with
        | nil => exact absurd rfl hp
        | cons q pt => exact ⟨q, pt, rfl⟩
      rw [List.drop_zero] at hc
      rw [replaceAllGo]
      cases hpre : (q :: pt).isPrefixOf (x :: t) with
      | true =>
        rw [if_pos rfl]
        rcases List.isPrefixOf_iff_prefix.mp hpre with ⟨rest, hrest⟩
        have hx : x = q := ((List.cons.injEq _ _ _ _).mp hrest.symm).1
        have ht : t = pt ++ rest := ((List.cons.injEq _ _ _ _).mp hrest.symm).2
        have hcx : c ≠ x := by
          intro hcontra
          exact hcp (hcontra ▸ hx ▸ List.mem_cons_self q pt)
        have hct : c ∈ t := by
          rcases List.mem_cons.mp hc with rfl | h
          · exact absurd rfl hcx
          · exact h
        have hcrest : c ∈ rest := by
          rw [ht] at hct
          rcases List.mem_append.mp hct with h | h
          · exact absurd (List.mem_cons_of_mem q h) hcp
          · exact h
        refine List.mem_append.mpr (Or.inr ?_)
        refine ih ((q :: pt).length - 1) ?_
        rw [ht]
        simpa [List.drop_left] using hcrest
      | false =>
        rw [if_neg (by decide)]
        rcases List.mem_cons.mp hc with rfl | h
        · exact List.mem_cons_self _ _
        · exact List.mem_cons_of_mem _ (ih 0 (by simpa using h))

/-- A character outside the pattern survives `replaceAll`. -/
theorem mem_replaceAll {p r s : List Char} {c : Char} (hp : p ≠ [])
    (hcp : c ∉ p) (hc : c ∈ s) : c ∈ replaceAll p r s :=
  mem_replaceAllGo hp hcp s 0 (by simpa using hc)

/-- `splitOnceAux` only answers `some` with a genuine decomposition. -/
theorem splitOnceAux_sound {p : List Char} (hp : p ≠ []) :
    ∀ (s acc x y : List Char), splitOnceAux p s acc = some (x, y) →
      acc.reverse ++ s = x ++ p ++ y := by
  intro s
  induction s with
  | nil =>
    intro acc x y h
    rw [splitOnceAux] at h
    have : p.isPrefixOf ([] : List Char) = false := by
      match p, hp with
      | q :: pt, _ => rfl
    rw [this] at h
    cases h
  | cons d t ih =>
    intro acc x y h
    obtain ⟨q, pt, rfl⟩ : ∃ q pt, p = q :: pt := by
      cases p with
      | nil => exact absurd rfl hp
      | cons q pt => exact ⟨q, pt, rfl⟩
    rw [splitOnceAux] at h
    cases hpre : (q :: pt).isPrefixOf (d :: t) with
    | true =>
      rw [hpre] at h
      simp only [if_true, Option.some.injEq, Prod.mk.injEq] at h
      rcases List.isPrefixOf_iff_prefix.mp hpre with ⟨rest, hrest⟩
      have hd : d = q := ((List.cons.injEq _ _ _ _).mp hrest.symm).1
      have ht : t = pt ++ rest := ((List.cons.injEq _ _ _ _).mp hrest.symm).2
      have hy : y = rest := by
        rw [← h.2, ht]
        simpa using List.drop_left pt rest
      rw [← h.1, hy, hd, ht]
      simp
    | false =>
      rw [hpre] at h
      simp only [Bool.false_eq_true, if_false] at h
      have := ih (d :: acc) x y h
      rw [List.reverse_cons, List.append_assoc] at this
      simpa using this

/-- `splitOnce` only answers `some` with a genuine decomposition. -/
theorem splitOnce_sound {p s : List Char} {ab : List Char × List Char}
    (hp : p ≠ []) (h : splitOnce p s = some ab) : s = ab.1 ++ p ++ ab.2 := by
  have := splitOnceAux_sound hp s [] ab.1 ab.2 (by rw [← h, splitOnce])
  simpa using this

/-- A `none` split means no occurrence. -/
theorem splitOnceAux_none {p : List Char} :
    ∀ (s acc : List Char), splitOnceAux p s acc = none → occursB p s = false := by
  intro s
  induction s with
  | nil =>
    intro acc h
    rw [splitOnceAux] at h
    cases hpre : p.isPrefixOf ([] : List Char) with
    | true => rw [hpre] at h; simp at h
    | false =>
      have hp : p ≠ [] := by
        intro hnil
        rw [hnil] at hpre
        cases hpre
      simp [occursB, hp]
  | cons d t ih =>
    intro acc h
    rw [splitOnceAux] at h
    cases hpre : p.isPrefixOf (d :: t) with
    | true => rw [hpre] at h; simp at h
    | false =>
      rw [hpre] at h
      simp only [Bool.false_eq_true, if_false] at h
      rw [occursB, hpre]
      simpa using ih (d :: acc) h

/-- The head of a string survives `strip_code_block` when it is
non-whitespace and is not the code-fence character. -/
theorem strip_code_block_head {s : List Char} {c : Char}
    (hh : s.head? = some c) (hws : isPySpace c = false) (hq : c ≠ '\x60') :
    (strip_code_block s).head? = some c := by
  have htbh : tbHtml = '\x60' :: ("``html").data := by decide
  have htbm : tbMarkdown = '\x60' :: ("``markdown").data := by decide
  have htb : tb = '\x60' :: ("``").data := by decide
  simp only [strip_code_block]
  have h1 : (pyStrip s).head? = some c := pyStrip_head hh hws
  obtain ⟨t1, ht1⟩ := List.head?_eq_some_iff.mp h1
  have h2 : (replaceAll tbHtml [] (pyStrip s)).head? = some c := by
    rw [replaceAll, ht1, htbh, replaceAllGo_cons_nomatch hq]
    rfl
  obtain ⟨t2, ht2⟩ := List.head?_eq_some_iff.mp h2
  have h3 : (replaceAll tbMarkdown [] (replaceAll tbHtml [] (pyStrip s))).head?
      = some c := by
    rw [replaceAll, ht2, htbm, replaceAllGo_cons_nomatch hq]
    rfl
  obtain ⟨t3, ht3⟩ := List.head?_eq_some_iff.mp h3
  have h4 : (replaceAll tb [] (replaceAll tbMarkdown []
      (replaceAll tbHtml [] (pyStrip s)))).head? = some c := by
    rw [replaceAll, ht3, htb, replaceAllGo_cons_nomatch hq]
    rfl
  exact pyStrip_head h4 hws

/-- A non-whitespace character outside every stripped marker survives
`strip_code_block`. -/
theorem strip_code_block_mem {s : List Char} {c : Char} (hc : c ∈ s)
    (hws : isPySpace c = false) (h1 : c ∉ tbHtml) (h2 : c ∉ tbMarkdown)
    (h3 : c ∉ tb) : c ∈ strip_code_block s := by
  simp only [strip_code_block]
  exact mem_pyStrip
    (mem_replaceAll (by decide) h3
      (mem_replaceAll (by decide) h2
        (mem_replaceAll (by decide) h1 (mem_pyStrip hc hws)))) hws

/-- C5 is refuted as universally stated: for the brief consisting of a
triple backtick, the fallback pipeline's code-fence stripping removes every
occurrence of the brief, so neither returned entry contains it. -/
theorem claim5_counterexample :
    occursB (("```").data)
      ((List.lookup ("index.html" : String)
        (generate_app_code (("```").data) [] [] 1 none (Except.error ())).files).getD [])
      = false ∧
    occursB (("```").data)
      ((List.lookup ("README.md" : String)
        (generate_app_code (("```").data) [] [] 1 none (Except.error ())).files).getD [])
      = false := by
  constructor
  · decide
  · decide

/-- On live-call failure the split of the fallback document always succeeds
and both stripped parts are non-empty, whatever the brief, checks and
attachment metadata contain. -/
theorem error_files_nonempty (brief : List Char) (saved : List SavedMeta)
    (checks : List (List Char)) (round_num : Nat)
    (prev_readme : Option (List Char)) :
    ∃ cp rp,
      (generate_app_code brief saved checks round_num prev_readme
        (Except.error ())).files =
        [(("index.html" : String), cp), (("README.md" : String), rp)] ∧
      cp ≠ [] ∧ rp ≠ [] := by
  have htext : genText brief saved checks round_num (Except.error ()) =
      generate_fallback_html brief ++ readmeSep
        ++ '\n' :: generate_readme_fallback brief checks
          (summarize_attachment_meta saved) round_num := rfl
  rcases hso : splitOnce readmeSep
      (genText brief saved checks round_num (Except.error ())) with _ | ab
  · exfalso
    have hocc : occursB readmeSep
        (genText brief saved checks round_num (Except.error ())) = true :=
      occursB_of_parts htext
    have h0 : splitOnceAux readmeSep
        (genText brief saved checks round_num (Except.error ())) [] = none := hso
    have hfalse := splitOnceAux_none
      (genText brief saved checks round_num (Except.error ())) [] h0
    simp [hfalse] at hocc
  · have hdec := splitOnce_sound (p := readmeSep) (by decide) hso
    have hth : (genText brief saved checks round_num (Except.error ())).head? =
        some ('<') := by
      rw [htext]
      exact head?_append_of_some (head?_append_of_some (html_head brief))
    refine ⟨strip_code_block ab.1, strip_code_block ab.2, ?_, ?_, ?_⟩
    · rw [generate_app_code.eq_def, hso]
    · -- the part before the first separator starts with the template head
      have ha1 : ab.1 ≠ [] := by
        intro h
        rw [hdec, h, List.nil_append] at hth
        have hsepH : (readmeSep ++ ab.2).head? = some ('-') :=
          head?_append_of_some (by decide)
        exact absurd (hsepH.symm.trans hth) (by decide)
      obtain ⟨a0, at1, ha⟩ : ∃ a0 at1, ab.1 = a0 :: at1 := by
        rcases hx : ab.1 with _ | ⟨a0, at1⟩
        · exact absurd hx ha1
        · exact ⟨a0, at1, rfl⟩
      have ha0 : (ab.1).head? = some ('<') := by
        rw [hdec, ha] at hth
        rw [ha, List.head?_cons]
        simpa using hth
      have hcph : (strip_code_block ab.1).head? = some ('<') :=
        strip_code_block_head ha0 (by decide) (by decide)
      intro h
      rw [h] at hcph
      cases hcph
    · -- the part after the separator keeps the closing asterisk
      obtain ⟨U, hU⟩ : ∃ U, readmeUsage = U ++ [('*' : Char), '\n'] :=
        ⟨readmeUsage.dropLast.dropLast, by decide⟩
      obtain ⟨Z, hZ⟩ := readme_usage_suffix brief checks
        (summarize_attachment_meta saved) round_num
      have hA : genText brief saved checks round_num (Except.error ()) =
          (generate_fallback_html brief ++ readmeSep
            ++ '\n' :: (Z ++ U)) ++ [('*' : Char), '\n'] := by
        rw [htext, hZ, hU]
        simp [List.append_assoc]
      have hTlast : (genText brief saved checks round_num
          (Except.error ())).getLast? = some ('\n') := by
        rw [hA]
        exact getLast?_append_of_some (by decide)
      have hs1 : [('*' : Char), '\n'] <:+
          genText brief saved checks round_num (Except.error ()) :=
        ⟨generate_fallback_html brief ++ readmeSep ++ '\n' :: (Z ++ U), hA.symm⟩
      have hs2 : ab.2 <:+ genText brief saved checks round_num (Except.error ()) :=
        ⟨ab.1 ++ readmeSep, hdec.symm⟩
      have hstar : ('*' : Char) ∈ ab.2 := by
        rcases List.suffix_or_suffix_of_suffix hs1 hs2 with h | h
        · obtain ⟨w, hw⟩ := h
          rw [← hw]
          simp
        · obtain ⟨w, hw⟩ := h
          rcases w with _ | ⟨w0, wt⟩
          · rw [List.nil_append] at hw
            rw [hw]
            simp
          · rcases wt with _ | ⟨w1, wt2⟩
            · have hw2 : w0 :: ab.2 = [('*' : Char), '\n'] := by
                simpa using hw
              have h1 : ab.2 = ['\n'] := (List.cons.injEq _ _ _ _ |>.mp hw2).2
              exfalso
              have hT1 : genText brief saved checks round_num (Except.error ()) =
                  (ab.1 ++ readmeSep) ++ [('\n' : Char)] := by
                rw [hdec, h1]
              have hT2 : genText brief saved checks round_num (Except.error ()) =
                  ((generate_fallback_html brief ++ readmeSep ++ '\n' :: (Z ++ U))
                    ++ [('*' : Char)]) ++ [('\n' : Char)] := by
                rw [hA]
                simp
              have hcancel : ab.1 ++ readmeSep =
                  (generate_fallback_html brief ++ readmeSep ++ '\n' :: (Z ++ U))
                    ++ [('*' : Char)] :=
                List.append_cancel_right (hT1.symm.trans hT2)
              have hl1 : (ab.1 ++ readmeSep).getLast? = some ('-') :=
                getLast?_append_of_some (by decide)
              have hl2 : ((generate_fallback_html brief ++ readmeSep
                  ++ '\n' :: (Z ++ U)) ++ [('*' : Char)]).getLast? = some ('*') :=
                getLast?_append_of_some (by decide)
              rw [hcancel] at hl1
              exact absurd (hl1.symm.trans hl2) (by decide)
            · exfalso
              have hlen := congrArg List.length hw
              simp only [List.length_append, List.length_cons,
                List.length_nil] at hlen
              have h2 : ab.2 = [] := List.eq_nil_of_length_eq_zero (by omega)
              have hT1 : genText brief saved checks round_num (Except.error ()) =
                  ab.1 ++ readmeSep := by
                rw [hdec, h2]
                simp
              have hl1 : (genText brief saved checks round_num
                  (Except.error ())).getLast? = some ('-') := by
                rw [hT1]
                exact getLast?_append_of_some (by decide)
              exact absurd (hl1.symm.trans hTlast) (by decide)
      have hmem : ('*' : Char) ∈ strip_code_block ab.2 :=
        strip_code_block_mem hstar (by decide) (by decide) (by decide) (by decide)
      exact List.ne_nil_of_mem hmem

/-- C5 amended: when the live call fails, the Generator still returns —
without propagating the failure — an artifact set whose `index.html` and
`README.md` entries are non-empty; and provided the brief, the checks and
the attachment summary contain neither a triple backtick nor (for the brief)
the `---README.md---` separator, both entries contain the brief verbatim.
Briefs containing those marker sequences may come back with the markers
stripped (see the counterexample). -/
theorem claim5_amended (brief : List Char) (saved : List SavedMeta)
    (checks : List (List Char)) (round_num : Nat)
    (prev_readme : Option (List Char)) :
    (∃ cp rp,
      (generate_app_code brief saved checks round_num prev_readme
        (Except.error ())).files =
        [(("index.html" : String), cp), (("README.md" : String), rp)] ∧
      cp ≠ [] ∧ rp ≠ []) ∧
    (occursB tb brief = false →
     occursB readmeSep brief = false →
     (∀ c ∈ checks, occursB tb c = false) →
     occursB tb (summarize_attachment_meta saved) = false →
     (round_num = 1 ∨ round_num = 2) →
     ∃ cp rp,
      (generate_app_code brief saved checks round_num prev_readme
        (Except.error ())).files =
        [(("index.html" : String), cp), (("README.md" : String), rp)] ∧
      occursB brief cp = true ∧ occursB brief rp = true) := by
  refine ⟨error_files_nonempty brief saved checks round_num prev_readme, ?_⟩
  intro hb hsep hchecks hmeta hround
  have hsplit : splitOnce readmeSep
      (genText brief saved checks round_num (Except.error ())) =
      some (generate_fallback_html brief,
        '\n' :: generate_readme_fallback brief checks
          (summarize_attachment_meta saved) round_num) := by
    simp only [genText]
    exact splitOnce_append (c := '>') (html_last brief) (by decide)
      (html_no_sep hsep)
  have hcp_eq : strip_code_block (generate_fallback_html brief) =
      generate_fallback_html brief := by
    have hstrip : pyStrip (generate_fallback_html brief) =
        generate_fallback_html brief :=
      pyStrip_eq_self (c := '<') (d := '>') (html_head brief) (by decide)
        (html_last brief) (by decide)
    have h1 : occursB tb (generate_fallback_html brief) = false := html_no_tb hb
    have h2 : occursB tbHtml (generate_fallback_html brief) = false := by
      have he : tbHtml = tb ++ ("html").data := by decide
      rw [he]
      exact occursB_append_pattern_false h1
    have h3 : occursB tbMarkdown (generate_fallback_html brief) = false := by
      have he : tbMarkdown = tb ++ ("markdown").data := by decide
      rw [he]
      exact occursB_append_pattern_false h1
    simp only [strip_code_block]
    rw [hstrip, replaceAll_id h2, replaceAll_id h3, replaceAll_id h1, hstrip]
  obtain ⟨hrp_ne, hrp_occ⟩ := readme_strip brief checks
    (summarize_attachment_meta saved) round_num hb hchecks hmeta hround
  refine ⟨strip_code_block (generate_fallback_html brief),
    strip_code_block ('\n' :: generate_readme_fallback brief checks
      (summarize_attachment_meta saved) round_num), ?_, ?_, hrp_occ⟩
  · rw [generate_app_code.eq_def, hsplit]
  · rw [hcp_eq, generate_fallback_html]
    exact occursB_of_parts rfl

/-- Witness for C5's amended statement at a concrete well-behaved brief. -/
theorem claim5_witness :
    (∃ cp rp,
      (generate_app_code (("todo app").data) [] [] 1 none
        (Except.error ())).files =
        [(("index.html" : String), cp), (("README.md" : String), rp)] ∧
      cp ≠ [] ∧ rp ≠ []) ∧
    (∃ cp rp,
      (generate_app_code (("todo app").data) [] [] 1 none
        (Except.error ())).files =
        [(("index.html" : String), cp), (("README.md" : String), rp)] ∧
      occursB (("todo app").data) cp = true ∧
      occursB (("todo app").data) rp = true) :=
  ⟨(claim5_amended (("todo app").data) [] [] 1 none).1,
   (claim5_amended (("todo app").data) [] [] 1 none).2 (by decide) (by decide)
     (by intro c hc; cases hc) (by decide) (Or.inl rfl)⟩

end App
